import Mathlib

/-!
Shallow embedding of `togethertxt.py`, a synthetic-textbook generation
pipeline, together with proofs about its core logic.

Python strings are modelled as `List Char`; the string primitives used by
the program (`split`, `strip`, `join`, `startswith`, indexing) are given
faithful executable counterparts below.  The external text-generation API
(`make_api_request`) is modelled as a response oracle: an infallible
`Nat → List Char` stream for success-path reasoning, and a fallible
`Nat → Option (List Char)` stream (with `none` standing for a raised
transport/API error) for the orchestration layer.  Floating-point
similarity ratios are modelled exactly, as rationals.
-/

namespace TogetherTxt

/-! ## Python string primitives -/

/-- ASCII whitespace stripped by Python `str.strip()` (the program only ever
meets ASCII model output, so the Unicode extension of `strip` is irrelevant
here). -/
def isPySpace (c : Char) : Bool :=
  c = ' ' || c = '\t' || c = '\n' || c = '\r' || c = '\x0b' || c = '\x0c'

/-- Python `s.strip()`: drop leading and trailing whitespace. -/
def pyStripL (s : List Char) : List Char :=
  ((s.dropWhile isPySpace).reverse.dropWhile isPySpace).reverse

/-- Worker for `pySplit`: scan the input, cutting at each (leftmost,
non-overlapping) occurrence of the separator `s0 :: srest`.  `fuel` only
keeps the recursion structural (so that it reduces in the kernel): one
unit is spent per scanned character and a separator hit drops further
characters, so the `fuel = s.length` supplied by `pySplit` is never
exhausted and the fuel-out equation is unreachable from `pySplit`. -/
def pySplitGo (s0 : Char) (srest : List Char) : Nat → List Char → List Char → List (List Char)
  | _, [], acc => [acc.reverse]
  | 0, _ :: _, acc => [acc.reverse]
  | fuel + 1, c :: rest, acc =>
    if (s0 :: srest).isPrefixOf (c :: rest) then
      acc.reverse :: pySplitGo s0 srest fuel (rest.drop srest.length) []
    else
      pySplitGo s0 srest fuel rest (c :: acc)

/-- Python `s.split(sep)` for a non-empty separator `s0 :: srest`:
splits at every occurrence, keeping empty pieces (`"a\n\nb".split("\n") =
["a", "", "b"]`). -/
def pySplit (s0 : Char) (srest : List Char) (s : List Char) : List (List Char) :=
  pySplitGo s0 srest s.length s []

/-- Python `sep.join(xs)`. -/
def pyJoin (sep : List Char) : List (List Char) → List Char
  | [] => []
  | [x] => x
  | x :: y :: rest => x ++ sep ++ pyJoin sep (y :: rest)

/-! ## difflib.SequenceMatcher (isjunk = None), as used by `is_similar`

`difflib.SequenceMatcher(None, a, b).ratio()` computes
`2 * M / (len a + len b)` where `M` is the total size of the matching
blocks found by recursively taking the longest matching block.  With
`isjunk = None` the junk set is empty, so the junk-extension phases of
`find_longest_match` are no-ops; the `autojunk` heuristic (elements of `b`
occurring more than `len b / 100 + 1` times when `len b ≥ 200`) still
filters the index table `b2j`. -/

/-- Index table `b2j`: ascending list of positions of `c` in `b`, with CPython's
autojunk filtering of popular elements. -/
def b2jIndices (b : List Char) (c : Char) : List Nat :=
  let idxs := (b.enum.filter (fun p => p.2 == c)).map Prod.fst
  if 200 ≤ b.length ∧ b.length / 100 + 1 < idxs.length then [] else idxs

/-- Inner loop of `find_longest_match` for one row `i`: walk the ascending
occurrence list of `a[i]` in `b`, building the new `j2len` table and the
running best block `(besti, bestj, bestsize)`.  `j < blo` is skipped
(`continue`), `j ≥ bhi` ends the walk (`break`, sound because the list is
ascending). -/
def fmRow (j2len : Nat → Nat) (i blo bhi : Nat) :
    List Nat → (Nat → Nat) → (Nat × Nat × Nat) → ((Nat → Nat) × (Nat × Nat × Nat))
  | [], newTab, best => (newTab, best)
  | j :: js, newTab, best =>
    if j < blo then fmRow j2len i blo bhi js newTab best
    else if bhi ≤ j then (newTab, best)
    else
      let k := (if j = 0 then 0 else j2len (j - 1)) + 1
      let newTab2 := fun j2 => if j2 = j then k else newTab j2
      let best2 := if best.2.2 < k then (i + 1 - k, j + 1 - k, k) else best
      fmRow j2len i blo bhi js newTab2 best2

/-- Outer loop of `find_longest_match`: rows `i = alo, …, ahi - 1`, each
starting from a fresh `newj2len` table. -/
def fmRows (a : List Char) (b2j : Char → List Nat) (blo bhi : Nat) :
    List Nat → (Nat → Nat) → (Nat × Nat × Nat) → (Nat × Nat × Nat)
  | [], _, best => best
  | i :: rest, j2len, best =>
    let step := fmRow j2len i blo bhi (b2j (a.getD i ' ')) (fun _ => 0) best
    fmRows a b2j blo bhi rest step.1 step.2

/-- Backward extension of the best block over equal elements
(`while besti > alo and bestj > blo and a[besti-1] == b[bestj-1]`; the
junk guard is vacuous with an empty junk set). -/
def extendBack (a b : List Char) (alo blo : Nat) : Nat → Nat → Nat → Nat × Nat × Nat
  | 0, bestj, size => (0, bestj, size)
  | besti + 1, bestj, size =>
    if alo < besti + 1 ∧ blo < bestj ∧ a.getD besti ' ' = b.getD (bestj - 1) ' ' then
      extendBack a b alo blo besti (bestj - 1) (size + 1)
    else (besti + 1, bestj, size)

/-- Forward extension of the best block over equal elements.  `fuel` keeps
the recursion structural; `extendFwd` passes `ahi - (besti + size)`, which
is exact: when it is zero the loop condition `besti + size < ahi` is false
as well, so the two stopping conditions agree. -/
def extendFwdGo (a b : List Char) (ahi bhi besti bestj : Nat) : Nat → Nat → Nat
  | 0, size => size
  | fuel + 1, size =>
    if besti + size < ahi ∧ bestj + size < bhi ∧
        a.getD (besti + size) ' ' = b.getD (bestj + size) ' ' then
      extendFwdGo a b ahi bhi besti bestj fuel (size + 1)
    else size

/-- Forward extension loop (`while besti+bestsize < ahi and bestj+bestsize
< bhi and a[besti+bestsize] == b[bestj+bestsize]: bestsize += 1`). -/
def extendFwd (a b : List Char) (ahi bhi besti bestj size : Nat) : Nat :=
  extendFwdGo a b ahi bhi besti bestj (ahi - (besti + size)) size

/-- Model of `SequenceMatcher.find_longest_match(alo, ahi, blo, bhi)` with an empty
junk set: dynamic-programming scan, then backward and forward extension. -/
def findLongestMatch (a b : List Char) (b2j : Char → List Nat) (alo ahi blo bhi : Nat) :
    Nat × Nat × Nat :=
  let best := fmRows a b2j blo bhi (List.range' alo (ahi - alo)) (fun _ => 0) (alo, blo, 0)
  let back := extendBack a b alo blo best.1 best.2.1 best.2.2
  let size := extendFwd a b ahi bhi back.1 back.2.1 back.2.2
  (back.1, back.2.1, size)

/-- Total size of the matching blocks of `get_matching_blocks`, computed by
the same divide-and-conquer recursion (the queue order and the merging of
adjacent blocks do not affect the total).  `fuel` only bounds the recursion
depth: every recursive call strictly shrinks `(ahi - alo) + (bhi - blo)`,
so the initial fuel `len a + len b + 1` is never exhausted. -/
def matchTotal (a b : List Char) (b2j : Char → List Nat) :
    Nat → Nat → Nat → Nat → Nat → Nat
  | 0, _, _, _, _ => 0
  | fuel + 1, alo, ahi, blo, bhi =>
    let m := findLongestMatch a b b2j alo ahi blo bhi
    if m.2.2 = 0 then 0
    else
      m.2.2 + matchTotal a b b2j fuel alo m.1 blo m.2.1
        + matchTotal a b b2j fuel (m.1 + m.2.2) ahi (m.2.1 + m.2.2) bhi

/-- Exact value of `difflib.SequenceMatcher(None, a, b).ratio()` (Python computes
`2.0 * M / T` in floating point; the rational value is the exact quantity
it rounds). -/
def ratioVal (a b : List Char) : Rat :=
  if a.length + b.length = 0 then 1
  else
    (2 * (matchTotal a b (b2jIndices b) (a.length + b.length + 1) 0 a.length 0 b.length : Nat) : Rat)
      / ((a.length + b.length : Nat) : Rat)

/-! ## Source constants (`togethertxt.py`, lines 17–28 and 44) -/

/-- The subject table `GENERAL_TOPICS` (a Python dict, iterated in insertion
order; only the keys seed prompts, the seed subtopic lists are never read
by the generation code). -/
def GENERAL_TOPICS : List (String × List String) :=
  [("world history", ["Ancient Civilizations", "Global Revolutions", "Renaissance",
      "World Wars", "Decolonization and Globalization"]),
   ("chemistry", ["Atomic Structure", "Chemical Bonds", "Biochemistry",
      "Chemical Thermodynamics", "Environmental Chemistry"]),
   ("philosophy", ["Metaphysics", "Ethics", "Existentialism",
      "Philosophy of Science", "Eastern Philosophy"]),
   ("mathematics", ["Algebra", "Geometry", "Calculus",
      "Differential Equations", "Mathematical Logic"]),
   ("biology", ["Cell Biology", "Evolution", "Genetics", "Ecology", "Human Physiology"]),
   ("physics", ["Mechanics", "Electromagnetism", "Quantum Physics",
      "Thermal Physics", "Astrophysics"]),
   ("arts and creativity", ["Art"])]

def GRADE_LEVELS : List String := ["7th grade", "high school", "college"]

def MAX_RETRIES : Nat := 5

/-! ## `is_similar` and the dedup check (lines 39–42, 68) -/

/-- The default `is_similar` threshold 0.9, in reduced constructor form so
that comparisons against it reduce in the kernel (`defaultThreshold_eq`
identifies it with the literal `9 / 10`). -/
def defaultThreshold : Rat := ⟨9, 10, by norm_num, by norm_num⟩

/-- Source `is_similar(a, b, threshold=0.9)`: the source computes
`difflib.SequenceMatcher(None, a, b).ratio() >= threshold`.  The comparison
is implemented in exact integer arithmetic (cross-multiplied, the
length-zero case being ratio 1) so that it evaluates inside the kernel;
`is_similar_iff` proves it equals `threshold ≤ ratioVal a b`. -/
def is_similar (a b : List Char) (threshold : Rat) : Bool :=
  if a.length + b.length = 0 then decide (threshold.num ≤ (threshold.den : Int))
  else
    decide (threshold.num * ((a.length + b.length : Nat) : Int) ≤
      ((2 * matchTotal a b (b2jIndices b) (a.length + b.length + 1)
          0 a.length 0 b.length : Nat) : Int) * (threshold.den : Int))

/-- The duplicate check at line 68:
`any(is_similar(topic, existing_topic) for existing_topic in ALL_TOPICS)`,
with `is_similar`'s default threshold 0.9. -/
def isDupAll (topic : List Char) (allTopics : List (List Char)) : Bool :=
  allTopics.any (fun existing => is_similar topic existing defaultThreshold)

/-! ## Topic-list parsing (line 64) -/

/-- Line 64:
`[topic.strip().split('. ')[-1] for topic in topics_text.split('\n') if topic and topic[0].isdigit()]`.
(`topic[0].isdigit()` is modelled with `Char.isDigit`; the program's model
output is ASCII, where the two coincide.) -/
def parseTopics (topicsText : List Char) : List (List Char) :=
  ((pySplit '\n' [] topicsText).filter
      (fun t => match t with
        | [] => false
        | c :: _ => c.isDigit)).map
    (fun t => (pySplit '.' [' '] (pyStripL t)).getLastD [])

/-! ## The topic-list retry loop (lines 46–77)

`make_api_request` is abstracted as a response oracle
`responses : Nat → List Char`: `responses k` is the (already stripped, line
35) text of the `k`-th API call of this `generate_topic_list_async`
invocation.  The global mutable `ALL_TOPICS` is threaded explicitly. -/

/-- The loop state: the call's own `unique_topics` and the global
`ALL_TOPICS`. -/
structure TLState where
  uniqueTopics : List (List Char)
  allTopics : List (List Char)

/-- Lines 67–70: the per-response `for topic in topics` loop.  Note that it
accepts every non-duplicate candidate of the response; there is no early
break when `unique_topics` reaches `num_topics`. -/
def acceptTopics (topics : List (List Char)) (s : TLState) : TLState :=
  topics.foldl
    (fun st topic =>
      if isDupAll topic st.allTopics then st
      else ⟨st.uniqueTopics ++ [topic], st.allTopics ++ [topic]⟩)
    s

/-- Lines 57–72, the `while len(unique_topics) < num_topics and retries <
MAX_RETRIES` loop.  `remaining` is `MAX_RETRIES - retries`, so the guard
`retries < MAX_RETRIES` is exactly `remaining > 0`; each iteration makes
one API call (`responses retries`) and increments `retries`.  Returns the
final state and the final `retries` value, i.e. the number of calls
made. -/
def tlLoop (numTopics : Nat) (responses : Nat → List Char) :
    Nat → Nat → TLState → TLState × Nat
  | 0, retries, s => (s, retries)
  | remaining + 1, retries, s =>
    if s.uniqueTopics.length < numTopics then
      tlLoop numTopics responses remaining (retries + 1)
        (acceptTopics (parseTopics (responses retries)) s)
    else (s, retries)

/-- The result of one `generate_topic_list_async` call: the returned list,
the updated `ALL_TOPICS`, the number of API calls made, and whether the
shortfall warning at lines 74–75 was printed. -/
structure TLResult where
  uniqueTopics : List (List Char)
  allTopics : List (List Char)
  calls : Nat
  warned : Bool

/-- Model of `generate_topic_list_async(base_topic, grade_level, num_topics)` on the
success path (every API call returns): lines 55–77.  `allTopics0` is the
content of the global `ALL_TOPICS` on entry. -/
def generate_topic_list_async (numTopics : Nat) (responses : Nat → List Char)
    (allTopics0 : List (List Char)) : TLResult :=
  let r := tlLoop numTopics responses MAX_RETRIES 0 ⟨[], allTopics0⟩
  ⟨r.1.uniqueTopics, r.1.allTopics, r.2, decide (r.1.uniqueTopics.length < numTopics)⟩

/-- Fallible variant of `tlLoop`: `responses k = none` models
`make_api_request` raising on the `k`-th call, which propagates out of the
loop uncaught. -/
def tlLoopE (numTopics : Nat) (responses : Nat → Option (List Char)) :
    Nat → Nat → TLState → Option (TLState × Nat)
  | 0, retries, s => some (s, retries)
  | remaining + 1, retries, s =>
    if s.uniqueTopics.length < numTopics then
      match responses retries with
      | none => none
      | some text =>
        tlLoopE numTopics responses remaining (retries + 1)
          (acceptTopics (parseTopics text) s)
    else some (s, retries)

/-- Model of `generate_topic_list_async` with a fallible API: `none` models an
uncaught transport/API exception. -/
def generate_topic_list_asyncE (numTopics : Nat) (responses : Nat → Option (List Char))
    (allTopics0 : List (List Char)) : Option TLResult :=
  (tlLoopE numTopics responses MAX_RETRIES 0 ⟨[], allTopics0⟩).map
    (fun r => ⟨r.1.uniqueTopics, r.1.allTopics, r.2,
      decide (r.1.uniqueTopics.length < numTopics)⟩)

/-! ## Entry generation (lines 79–99) -/

/-- Lines 90–95: drop the first line of the response if, once stripped, it
starts with `"Sure"`; then strip the remainder. -/
def cleanEntry (entry : List Char) : List Char :=
  let entryLines := pySplit '\n' [] entry
  let entry1 :=
    if "Sure".toList.isPrefixOf (pyStripL (entryLines.headD [])) then
      pyJoin ['\n'] (entryLines.drop 1)
    else entry
  pyStripL entry1

/-- Model of `generate_entry_async(topic, grade_level)` given the API response for
its single call (the semaphore and the progress bar have no effect on the
returned value): returns `(topic, cleaned entry)`. -/
def generate_entry_async (topic response : List Char) : List Char × List Char :=
  (topic, cleanEntry response)

/-! ## Orchestration (lines 101–134)

The per-call API oracle is indexed by a running count of topic-list API
calls (topic-list generation is strictly sequential), and entry responses
are keyed by `(topic, grade_level)` (entry generation is concurrent, but
each call's response is determined by its own request). -/

/-- The `for base_topic in GENERAL_TOPICS.keys()` loop of
`generate_textbook_for_grade` (lines 107–109): sequentially generates the
topic list for each subject, threading `ALL_TOPICS` and the API-call
counter; returns `(all_topics_for_grade, ALL_TOPICS, counter)`. -/
def gradeTopicsE (oracle : Nat → Option (List Char)) :
    List String → Nat → List (List Char) →
      Option (List (List Char) × List (List Char) × Nat)
  | [], calls, allTopics => some ([], allTopics, calls)
  | _baseTopic :: rest, calls, allTopics =>
    match generate_topic_list_asyncE 5 (fun k => oracle (calls + k)) allTopics with
    | none => none
    | some r =>
      match gradeTopicsE oracle rest (calls + r.calls) r.allTopics with
      | none => none
      | some (topics, allTopics2, calls2) =>
        some (r.uniqueTopics ++ topics, allTopics2, calls2)

/-- The `asyncio.gather` of `generate_entry_async` over
`all_topics_for_grade` (line 112): results arrive in launch order; a single
raised entry-generation call makes the whole gather raise. -/
def gradeEntriesE (entryOracle : List Char → String → Option (List Char))
    (gradeLevel : String) (topics : List (List Char)) :
    Option (List (List Char × List Char)) :=
  topics.mapM (fun t => (entryOracle t gradeLevel).map (fun resp => generate_entry_async t resp))

/-- Python dict assignment `d[k] = v`: overwrite in place if the key
exists, else append. -/
def dictInsert (d : List (List Char × List Char)) (k v : List Char) :
    List (List Char × List Char) :=
  if d.any (fun p => p.1 == k) then d.map (fun p => if p.1 = k then (k, v) else p)
  else d ++ [(k, v)]

/-- Lines 114–115: `textbook[topic] = content` over the gathered entries. -/
def buildTextbook (entries : List (List Char × List Char)) : List (List Char × List Char) :=
  entries.foldl (fun tb p => dictInsert tb p.1 p.2) []

/-- Model of `generate_textbook_for_grade(grade_level)` (lines 101–117), returning
the textbook together with the threaded `ALL_TOPICS` and call counter. -/
def generate_textbook_for_grade (oracle : Nat → Option (List Char))
    (entryOracle : List Char → String → Option (List Char)) (gradeLevel : String)
    (calls : Nat) (allTopics : List (List Char)) :
    Option (List (List Char × List Char) × List (List Char) × Nat) :=
  match gradeTopicsE oracle (GENERAL_TOPICS.map Prod.fst) calls allTopics with
  | none => none
  | some (topics, allTopics2, calls2) =>
    match gradeEntriesE entryOracle gradeLevel topics with
    | none => none
    | some entries => some (buildTextbook entries, allTopics2, calls2)

/-- The `for grade_level in GRADE_LEVELS` loop of
`generate_textbooks_async` (lines 122–124): builds the
`"<grade level> Textbook"` entries in order, threading state. -/
def textbooksLoopE (oracle : Nat → Option (List Char))
    (entryOracle : List Char → String → Option (List Char)) :
    List String → Nat → List (List Char) →
      Option (List (String × List (List Char × List Char)) × List (List Char) × Nat)
  | [], calls, allTopics => some ([], allTopics, calls)
  | grade :: rest, calls, allTopics =>
    match generate_textbook_for_grade oracle entryOracle grade calls allTopics with
    | none => none
    | some (tb, allTopics2, calls2) =>
      match textbooksLoopE oracle entryOracle rest calls2 allTopics2 with
      | none => none
      | some (books, allTopics3, calls3) =>
        some ((grade ++ " Textbook", tb) :: books, allTopics3, calls3)

/-- Model of `generate_textbooks_async()` (lines 119–127) up to the point of the
file write: `some corpus` is the in-memory `all_textbooks` dict on success,
`none` an uncaught exception. -/
def generate_textbooks_async (oracle : Nat → Option (List Char))
    (entryOracle : List Char → String → Option (List Char)) :
    Option (List (String × List (List Char × List Char))) :=
  (textbooksLoopE oracle entryOracle GRADE_LEVELS 0 []).map (fun r => r.1)

/-- The `__main__` block (lines 130–134): the corpus file is written once,
at the end of `generate_textbooks_async`, and the top-level
`try/except` logs any exception and writes nothing.  `mainWrites` is the
list of file writes the process performs. -/
def mainWrites (oracle : Nat → Option (List Char))
    (entryOracle : List Char → String → Option (List Char)) :
    List (List (String × List (List Char × List Char))) :=
  match generate_textbooks_async oracle entryOracle with
  | none => []
  | some corpus => [corpus]

/-! ## Helper lemmas about the loop bodies -/

/-- The value `defaultThreshold` is the source's literal `0.9`. -/
theorem defaultThreshold_eq : defaultThreshold = (9 : Rat) / 10 := by
  rw [defaultThreshold, Rat.mk'_eq_divInt, Rat.divInt_eq_div]
  norm_num

/-- The integer comparison inside `is_similar` is exactly the rational
comparison `threshold ≤ ratioVal a b` of the source. -/
theorem is_similar_iff (a b : List Char) (th : Rat) :
    is_similar a b th = true ↔ th ≤ ratioVal a b := by
  have hden : (0 : Rat) < (th.den : Rat) := by
    exact_mod_cast Nat.pos_of_ne_zero th.den_nz
  by_cases hT : a.length + b.length = 0
  · rw [is_similar, ratioVal, if_pos hT, if_pos hT, decide_eq_true_iff]
    constructor
    · intro h
      rw [← Rat.num_div_den th, div_le_one hden]
      exact_mod_cast h
    · intro h
      rw [← Rat.num_div_den th, div_le_one hden] at h
      exact_mod_cast h
  · have hTpos : (0 : Rat) < ((a.length + b.length : Nat) : Rat) := by
      exact_mod_cast Nat.pos_of_ne_zero hT
    rw [is_similar, ratioVal, if_neg hT, if_neg hT, decide_eq_true_iff,
      le_div_iff₀ hTpos]
    constructor
    · intro h
      rw [← Rat.num_div_den th, div_mul_eq_mul_div, div_le_iff₀ hden]
      exact_mod_cast h
    · intro h
      rw [← Rat.num_div_den th, div_mul_eq_mul_div, div_le_iff₀ hden] at h
      exact_mod_cast h

/-- The per-response acceptance loop only appends to `ALL_TOPICS`. -/
theorem acceptTopics_allTopics_mono (ts : List (List Char)) :
    ∀ s : TLState, s.allTopics <+: (acceptTopics ts s).allTopics := by
  induction ts with
  | nil => intro s; exact List.prefix_refl _
  | cons t ts ih =>
    intro s
    have h2 := ih (if isDupAll t s.allTopics then s
      else ⟨s.uniqueTopics ++ [t], s.allTopics ++ [t]⟩)
    simp only [acceptTopics, List.foldl_cons] at h2 ⊢
    refine List.IsPrefix.trans ?_ h2
    split
    · exact List.prefix_refl _
    · exact List.prefix_append _ _

/-- The acceptance loop adds at most one topic per candidate. -/
theorem acceptTopics_length_le (ts : List (List Char)) :
    ∀ s : TLState,
      (acceptTopics ts s).uniqueTopics.length ≤ s.uniqueTopics.length + ts.length := by
  induction ts with
  | nil => intro s; simp [acceptTopics]
  | cons t ts ih =>
    intro s
    have h2 := ih (if isDupAll t s.allTopics then s
      else ⟨s.uniqueTopics ++ [t], s.allTopics ++ [t]⟩)
    simp only [acceptTopics, List.foldl_cons] at h2 ⊢
    have hstep : (if isDupAll t s.allTopics then s
        else TLState.mk (s.uniqueTopics ++ [t]) (s.allTopics ++ [t])).uniqueTopics.length
          ≤ s.uniqueTopics.length + 1 := by
      split <;> simp
    calc _ ≤ _ := h2
      _ ≤ s.uniqueTopics.length + 1 + ts.length := by omega
      _ = s.uniqueTopics.length + (ts.length + 1) := by omega
      _ = _ := by simp

/-- If every candidate is a near-duplicate of the (unchanged) accepted set,
the acceptance loop is the identity. -/
theorem acceptTopics_all_dup (ts : List (List Char)) :
    ∀ (u A : List (List Char)), (∀ t ∈ ts, isDupAll t A = true) →
      acceptTopics ts ⟨u, A⟩ = ⟨u, A⟩ := by
  induction ts with
  | nil => intro u A _; rfl
  | cons t ts ih =>
    intro u A h
    have ht : isDupAll t A = true := h t (List.mem_cons_self _ _)
    have h2 := ih u A (fun x hx => h x (List.mem_cons_of_mem _ hx))
    simp only [acceptTopics, List.foldl_cons] at h2 ⊢
    simpa [ht] using h2

/-- The retry loop makes at most `remaining` further calls. -/
theorem tlLoop_calls_le (n : Nat) (resp : Nat → List Char) (rem : Nat) :
    ∀ (retries : Nat) (s : TLState),
      (tlLoop n resp rem retries s).2 ≤ retries + rem := by
  induction rem with
  | zero => intro r s; simp [tlLoop]
  | succ rem ih =>
    intro r s
    simp only [tlLoop]
    split
    · exact (ih (r + 1) _).trans (by omega)
    · simp

/-- Bound on the result length: the loop only re-enters while the list is
still short of `n`, and one response adds at most `B` candidates. -/
theorem tlLoop_len_bound (n B : Nat) (resp : Nat → List Char)
    (hB : ∀ k, (parseTopics (resp k)).length ≤ B) (rem : Nat) :
    ∀ (retries : Nat) (s : TLState),
      (tlLoop n resp rem retries s).1.uniqueTopics.length
        ≤ max s.uniqueTopics.length (n - 1 + B) := by
  induction rem with
  | zero => intro r s; simp [tlLoop]
  | succ rem ih =>
    intro r s
    simp only [tlLoop]
    split
    · rename_i hlen
      have hacc := acceptTopics_length_le (parseTopics (resp r)) s
      have hk := hB r
      have hs2 : (acceptTopics (parseTopics (resp r)) s).uniqueTopics.length
          ≤ n - 1 + B := by omega
      have h2 := ih (r + 1) (acceptTopics (parseTopics (resp r)) s)
      rw [Nat.max_eq_right hs2] at h2
      exact h2.trans (Nat.le_max_right _ _)
    · simp

/-- If the loop returned before exhausting its retries, the result list
reached the target. -/
theorem tlLoop_early_stop (n : Nat) (resp : Nat → List Char) (rem : Nat) :
    ∀ (retries : Nat) (s : TLState),
      (tlLoop n resp rem retries s).2 < retries + rem →
        n ≤ (tlLoop n resp rem retries s).1.uniqueTopics.length := by
  induction rem with
  | zero => intro r s h; simp [tlLoop] at h
  | succ rem ih =>
    intro r s
    simp only [tlLoop]
    split
    · intro h
      exact ih (r + 1) _ (by omega)
    · rename_i hlen
      intro _
      simpa using Nat.le_of_not_lt hlen

/-- The retry loop only appends to `ALL_TOPICS`. -/
theorem tlLoop_allTopics_mono (n : Nat) (resp : Nat → List Char) (rem : Nat) :
    ∀ (retries : Nat) (s : TLState),
      s.allTopics <+: (tlLoop n resp rem retries s).1.allTopics := by
  induction rem with
  | zero => intro r s; exact List.prefix_refl _
  | succ rem ih =>
    intro r s
    simp only [tlLoop]
    split
    · exact (acceptTopics_allTopics_mono _ s).trans (ih (r + 1) _)
    · exact List.prefix_refl _

/-- Fallible retry loop, success case: `ALL_TOPICS` only grows. -/
theorem tlLoopE_allTopics_mono (n : Nat) (resp : Nat → Option (List Char)) (rem : Nat) :
    ∀ (retries : Nat) (s : TLState) (p : TLState × Nat),
      tlLoopE n resp rem retries s = some p → s.allTopics <+: p.1.allTopics := by
  induction rem with
  | zero =>
    intro r s p h
    simp only [tlLoopE, Option.some.injEq] at h
    subst h
    exact List.prefix_refl _
  | succ rem ih =>
    intro r s p h
    simp only [tlLoopE] at h
    split at h
    · split at h
      · exact absurd h (by simp)
      · exact (acceptTopics_allTopics_mono _ s).trans (ih (r + 1) _ p h)
    · simp only [Option.some.injEq] at h
      subst h
      exact List.prefix_refl _

/-- If every response consists only of near-duplicates of the accepted set,
the fallible retry loop keeps the state unchanged and uses all its
retries. -/
theorem tlLoopE_all_dup (n : Nat) (hn : 0 < n) (resp : Nat → List Char)
    (A : List (List Char)) (rem : Nat) :
    ∀ retries : Nat,
      (∀ k, retries ≤ k → k < retries + rem →
        ∀ t ∈ parseTopics (resp k), isDupAll t A = true) →
      tlLoopE n (fun k => some (resp k)) rem retries ⟨[], A⟩
        = some (⟨[], A⟩, retries + rem) := by
  induction rem with
  | zero => intro r _; simp [tlLoopE]
  | succ rem ih =>
    intro r h
    have heq : r + (rem + 1) = (r + 1) + rem := by omega
    rw [heq]
    simp only [tlLoopE]
    rw [if_pos (by simpa using hn)]
    rw [acceptTopics_all_dup _ [] A (h r le_rfl (by omega))]
    exact ih (r + 1) (fun k hk1 hk2 => h k (by omega) (by omega))

/-- Lemma for `generate_topic_list_asyncE`, success case: `ALL_TOPICS` only grows. -/
theorem generate_topic_list_asyncE_mono (n : Nat) (resp : Nat → Option (List Char))
    (A : List (List Char)) (r : TLResult) :
    generate_topic_list_asyncE n resp A = some r → A <+: r.allTopics := by
  intro h
  simp only [generate_topic_list_asyncE] at h
  cases htl : tlLoopE n resp MAX_RETRIES 0 ⟨[], A⟩ with
  | none => rw [htl] at h; simp at h
  | some p =>
    rw [htl] at h
    simp only [Option.map_some', Option.some.injEq] at h
    have hpre := tlLoopE_allTopics_mono n resp MAX_RETRIES 0 ⟨[], A⟩ p htl
    rw [← h]
    exact hpre

/-- The per-grade subject loop, success case: `ALL_TOPICS` only grows. -/
theorem gradeTopicsE_mono (oracle : Nat → Option (List Char)) (subjects : List String) :
    ∀ (calls : Nat) (A : List (List Char)) res,
      gradeTopicsE oracle subjects calls A = some res → A <+: res.2.1 := by
  induction subjects with
  | nil =>
    intro c A res h
    simp only [gradeTopicsE, Option.some.injEq] at h
    subst h
    exact List.prefix_refl _
  | cons subj rest ih =>
    intro c A res h
    simp only [gradeTopicsE] at h
    split at h
    · exact absurd h (by simp)
    · rename_i r hg
      split at h
      · exact absurd h (by simp)
      · rename_i topics2 A2 c2 hrec
        simp only [Option.some.injEq] at h
        have h1 := generate_topic_list_asyncE_mono 5 _ A r hg
        have h2 := ih (c + r.calls) r.allTopics _ hrec
        subst h
        exact h1.trans h2

/-- Lemma for `generate_textbook_for_grade`, success case: `ALL_TOPICS` only grows. -/
theorem generate_textbook_for_grade_mono (oracle : Nat → Option (List Char))
    (entryOracle : List Char → String → Option (List Char)) (grade : String) :
    ∀ (calls : Nat) (A : List (List Char)) res,
      generate_textbook_for_grade oracle entryOracle grade calls A = some res →
        A <+: res.2.1 := by
  intro c A res h
  simp only [generate_textbook_for_grade] at h
  split at h
  · exact absurd h (by simp)
  · rename_i topics A2 c2 hg
    split at h
    · exact absurd h (by simp)
    · rename_i entries he
      simp only [Option.some.injEq] at h
      have hp := gradeTopicsE_mono oracle _ c A _ hg
      subst h
      exact hp

/-- The grade-level loop, success case: `ALL_TOPICS` only grows. -/
theorem textbooksLoopE_mono (oracle : Nat → Option (List Char))
    (entryOracle : List Char → String → Option (List Char)) (grades : List String) :
    ∀ (calls : Nat) (A : List (List Char)) res,
      textbooksLoopE oracle entryOracle grades calls A = some res → A <+: res.2.1 := by
  induction grades with
  | nil =>
    intro c A res h
    simp only [textbooksLoopE, Option.some.injEq] at h
    subst h
    exact List.prefix_refl _
  | cons g rest ih =>
    intro c A res h
    simp only [textbooksLoopE] at h
    split at h
    · exact absurd h (by simp)
    · rename_i tb A2 c2 hg
      split at h
      · exact absurd h (by simp)
      · rename_i books A3 c3 hrec
        simp only [Option.some.injEq] at h
        have h1 := generate_textbook_for_grade_mono oracle entryOracle g c A _ hg
        have h2 := ih c2 A2 _ hrec
        subst h
        exact h1.trans h2

/-- The grade-level loop, success case: the corpus keys are exactly the
grade labels suffixed with `" Textbook"`, in order. -/
theorem textbooksLoopE_keys (oracle : Nat → Option (List Char))
    (entryOracle : List Char → String → Option (List Char)) (grades : List String) :
    ∀ (calls : Nat) (A : List (List Char)) res,
      textbooksLoopE oracle entryOracle grades calls A = some res →
        res.1.map Prod.fst = grades.map (fun g => g ++ " Textbook") := by
  induction grades with
  | nil =>
    intro c A res h
    simp only [textbooksLoopE, Option.some.injEq] at h
    subst h
    simp
  | cons g rest ih =>
    intro c A res h
    simp only [textbooksLoopE] at h
    split at h
    · exact absurd h (by simp)
    · rename_i tb A2 c2 hg
      split at h
      · exact absurd h (by simp)
      · rename_i books A3 c3 hrec
        simp only [Option.some.injEq] at h
        have h2 := ih c2 A2 _ hrec
        subst h
        simpa using h2

/-! ## Claim theorems -/

/-- C4: for every call to the Topic List Generator, regardless of the
contents of the responses, the number of client calls issued is at most
`MAX_RETRIES` (the loop itself is a total function, so it terminates by
construction). -/
theorem topicList_calls_bounded (numTopics : Nat) (responses : Nat → List Char)
    (allTopics0 : List (List Char)) :
    (generate_topic_list_async numTopics responses allTopics0).calls ≤ MAX_RETRIES := by
  have h := tlLoop_calls_le numTopics responses MAX_RETRIES 0 ⟨[], allTopics0⟩
  simpa [generate_topic_list_async] using h

/-- C1 (as stated, refuted): with target count 1 and a first response
containing two distinct candidates, the code accepts both — the inner
acceptance loop has no early stop at `target_count`, so the returned list
has length 2 > 1. -/
theorem topicList_exceeds_target_cex :
    (generate_topic_list_async 1 (fun _ => "1. Aaaa\n2. Bbbb".toList) []).uniqueTopics
        = ["Aaaa".toList, "Bbbb".toList]
    ∧ ¬ ((generate_topic_list_async 1
          (fun _ => "1. Aaaa\n2. Bbbb".toList) []).uniqueTopics.length ≤ 1) := by
  decide

/-- C1 (amended): the loop stops issuing further client calls once the
result list has reached `target_count` (if it returned with calls to
spare, the target was reached), but it accepts every non-duplicate
candidate of the current response, so the returned length is only bounded
by `target_count - 1` plus the number of candidates a single response can
contribute. -/
theorem topicList_length_bound (numTopics B : Nat) (responses : Nat → List Char)
    (allTopics0 : List (List Char))
    (hB : ∀ k, (parseTopics (responses k)).length ≤ B) :
    (generate_topic_list_async numTopics responses allTopics0).uniqueTopics.length
        ≤ numTopics - 1 + B
    ∧ ((generate_topic_list_async numTopics responses allTopics0).calls < MAX_RETRIES →
        numTopics ≤
          (generate_topic_list_async numTopics responses allTopics0).uniqueTopics.length) := by
  constructor
  · have h := tlLoop_len_bound numTopics B responses hB MAX_RETRIES 0 ⟨[], allTopics0⟩
    simpa [generate_topic_list_async] using h
  · intro hcalls
    have h := tlLoop_early_stop numTopics responses MAX_RETRIES 0 ⟨[], allTopics0⟩
      (by simpa [generate_topic_list_async] using hcalls)
    simpa [generate_topic_list_async] using h

theorem topicList_length_bound_witness :
    (generate_topic_list_async 1 (fun _ => "1. Aaaa\n2. Bbbb".toList) []).uniqueTopics.length
        ≤ 1 - 1 + 2
    ∧ ((generate_topic_list_async 1 (fun _ => "1. Aaaa\n2. Bbbb".toList) []).calls
          < MAX_RETRIES →
        1 ≤ (generate_topic_list_async 1
          (fun _ => "1. Aaaa\n2. Bbbb".toList) []).uniqueTopics.length) :=
  topicList_length_bound 1 2 (fun _ => "1. Aaaa\n2. Bbbb".toList) []
    (by
      intro k
      show (parseTopics "1. Aaaa\n2. Bbbb".toList).length ≤ 2
      decide)

/-- C2 (as stated, refuted): the parser does not merely strip a leading
numbering token.  `"1. U.S. History"` is split on every occurrence of
`". "` and only the final segment is kept, so the extracted candidate is
`"History"`, not the claimed intact remainder `"U.S. History"`. -/
theorem parseTopics_interior_token_cex :
    parseTopics "1. U.S. History".toList = ["History".toList]
    ∧ "History".toList ≠ "U.S. History".toList := by
  decide

/-- The amended parsing contract, stated in the spec vocabulary: keep the
newline-separated lines whose first character is a digit, strip each kept
line, split it on every occurrence of `". "` and keep the final segment. -/
def keepsLine (t : List Char) : Bool :=
  match t with
  | [] => false
  | c :: _ => c.isDigit

/-- Final `". "`-segment of a stripped line (amended spec vocabulary). -/
def lastDotSegment (t : List Char) : List Char :=
  (pySplit '.' [' '] (pyStripL t)).getLastD []

/-- Amended parsing, assembled from the spec-side vocabulary. -/
def parseTopicsSpec (text : List Char) : List (List Char) :=
  ((pySplit '\n' [] text).filter keepsLine).map lastDotSegment

/-- C2 (amended): the parser splits on newline, keeps exactly the lines
whose first character is a digit, strips each kept line, and keeps only its
final `". "`-segment (so interior `". "` occurrences also truncate); on the
spec example it extracts exactly `["Foo", "Bar", "Baz"]`. -/
theorem parseTopics_spec_and_example :
    parseTopics "1. Foo\n2. Bar\nNotes: ignore this\n3. Baz".toList
        = ["Foo".toList, "Bar".toList, "Baz".toList]
    ∧ ∀ text : List Char, parseTopics text = parseTopicsSpec text :=
  ⟨by decide, fun _ => rfl⟩

/-- C3: if every response of one call parses to candidates that are all
near-duplicates of the already-accepted set, the call makes exactly
`MAX_RETRIES` client calls, accepts nothing, triggers the shortfall
warning, and returns normally (`some`, not an error). -/
theorem topicList_all_duplicates_shortfall (numTopics : Nat)
    (responses : Nat → List Char) (allTopics0 : List (List Char))
    (hn : 0 < numTopics)
    (hdup : ∀ k, k < MAX_RETRIES →
      ∀ t ∈ parseTopics (responses k), isDupAll t allTopics0 = true) :
    generate_topic_list_asyncE numTopics (fun k => some (responses k)) allTopics0
      = some ⟨[], allTopics0, MAX_RETRIES, true⟩ := by
  have h := tlLoopE_all_dup numTopics hn responses allTopics0 MAX_RETRIES 0
    (fun k hk1 hk2 => hdup k (by omega))
  simp only [generate_topic_list_asyncE, h, Option.map_some', Option.some.injEq]
  simp [decide_eq_true hn]

theorem topicList_all_duplicates_shortfall_witness :
    generate_topic_list_asyncE 5 (fun _ => some "1. Ab".toList) ["Ab".toList]
      = some ⟨[], ["Ab".toList], MAX_RETRIES, true⟩ :=
  topicList_all_duplicates_shortfall 5 (fun _ => "1. Ab".toList) ["Ab".toList]
    (by decide)
    (by
      intro k _
      show ∀ t ∈ parseTopics "1. Ab".toList, isDupAll t ["Ab".toList] = true
      decide)

/-- C5: the line-68 duplicate check succeeds exactly when some member of
the accepted set has similarity ratio at least the default threshold 0.9
with the candidate, and a candidate that fails the check is accepted
(appended to the result list). -/
theorem dedup_iff_ratio_ge_threshold (topic : List Char)
    (allTopics uniq : List (List Char)) :
    (isDupAll topic allTopics = true ↔
      ∃ existing ∈ allTopics, ratioVal topic existing ≥ (9 : Rat) / 10)
    ∧ (acceptTopics [topic] ⟨uniq, allTopics⟩).uniqueTopics
        = (if isDupAll topic allTopics then uniq else uniq ++ [topic]) := by
  constructor
  · simp only [isDupAll, List.any_eq_true]
    constructor
    · rintro ⟨x, hx, hsim⟩
      refine ⟨x, hx, ?_⟩
      have h9 := (is_similar_iff topic x defaultThreshold).mp hsim
      rw [defaultThreshold_eq] at h9
      exact h9
    · rintro ⟨x, hx, h9⟩
      refine ⟨x, hx, ?_⟩
      rw [is_similar_iff, defaultThreshold_eq]
      exact h9
  · simp only [acceptTopics, List.foldl_cons, List.foldl_nil]
    split <;> rfl

/-- C6: entry post-processing — if the stripped first line of the response
starts with `"Sure"`, that whole line is dropped and the remainder is
stripped; otherwise the result is the stripped response unchanged; either
way it is paired with the original topic. -/
theorem entry_preamble_stripping (topic entry : List Char) :
    ("Sure".toList.isPrefixOf (pyStripL ((pySplit '\n' [] entry).headD [])) = true →
      generate_entry_async topic entry
        = (topic, pyStripL (pyJoin ['\n'] ((pySplit '\n' [] entry).drop 1))))
    ∧ ("Sure".toList.isPrefixOf (pyStripL ((pySplit '\n' [] entry).headD [])) = false →
      generate_entry_async topic entry = (topic, pyStripL entry)) := by
  constructor <;> intro h <;>
    simp only [generate_entry_async, cleanEntry, h] <;> simp

theorem entry_preamble_stripping_witness :
    generate_entry_async "T".toList "Sure, here goes:\nActual content.".toList
      = ("T".toList, "Actual content.".toList) := by
  have h := (entry_preamble_stripping "T".toList
    "Sure, here goes:\nActual content.".toList).1 (by decide)
  exact h.trans (by decide)

/-- C10: a response that is a single line (splitting on newline returns
just the response) whose stripped text starts with `"Sure"` is dropped
entirely: the entry content is the empty string, still paired with the
topic.  (Responses are pre-stripped by `make_api_request`, line 35, so the
single-line condition on the response itself is the claim's "after
trimming" condition.) -/
theorem entry_single_sure_line_empty (topic entry : List Char)
    (h1 : pySplit '\n' [] entry = [entry])
    (h2 : "Sure".toList.isPrefixOf (pyStripL entry) = true) :
    generate_entry_async topic entry = (topic, []) := by
  simp only [generate_entry_async, cleanEntry, h1, List.headD_cons, h2]
  simp [pyJoin, pyStripL]

theorem entry_single_sure_line_empty_witness :
    generate_entry_async "T".toList "Sure thing.".toList = ("T".toList, []) :=
  entry_single_sure_line_empty "T".toList "Sure thing.".toList (by decide) (by decide)

/-- C7: the accepted-topic set (`ALL_TOPICS`) only grows — every level of
the pipeline (the per-response acceptance loop, one Topic List Generator
call, the per-grade subject loop, and the whole multi-grade run, which all
thread the one set) leaves the previous set as a prefix of the new one, so
no accepted topic is ever removed or mutated. -/
theorem accepted_topics_only_grow :
    (∀ (ts : List (List Char)) (s : TLState),
        s.allTopics <+: (acceptTopics ts s).allTopics)
    ∧ (∀ (numTopics : Nat) (responses : Nat → List Char)
        (allTopics0 : List (List Char)),
        allTopics0 <+: (generate_topic_list_async numTopics responses allTopics0).allTopics)
    ∧ (∀ (oracle : Nat → Option (List Char)) (subjects : List String) (calls : Nat)
        (allTopics0 : List (List Char)) res,
        gradeTopicsE oracle subjects calls allTopics0 = some res →
          allTopics0 <+: res.2.1)
    ∧ (∀ (oracle : Nat → Option (List Char))
        (entryOracle : List Char → String → Option (List Char))
        (grades : List String) (calls : Nat) (allTopics0 : List (List Char)) res,
        textbooksLoopE oracle entryOracle grades calls allTopics0 = some res →
          allTopics0 <+: res.2.1) := by
  refine ⟨acceptTopics_allTopics_mono, fun n resp A => ?_,
    fun oracle subjects c A res h => gradeTopicsE_mono oracle subjects c A res h,
    fun oracle eo grades c A res h => textbooksLoopE_mono oracle eo grades c A res h⟩
  have h := tlLoop_allTopics_mono n resp MAX_RETRIES 0 ⟨[], A⟩
  simpa [generate_topic_list_async] using h

theorem accepted_topics_only_grow_witness :
    (["Qz".toList] : List (List Char)) <+: ["Qz".toList, "Ab".toList] :=
  accepted_topics_only_grow.2.2.1 (fun _ => some "1. Ab".toList) ["s"] 0
    ["Qz".toList] (["Ab".toList], ["Qz".toList, "Ab".toList], 5) (by decide)

/-- C8: the corpus file is written exactly once, only when every grade
level completed successfully, and its top-level keys are exactly
`"<grade level> Textbook"` for each configured grade level in order; an
uncaught failure anywhere in the run reaches the top level and nothing is
written. -/
theorem corpus_write_once_and_keys (oracle : Nat → Option (List Char))
    (entryOracle : List Char → String → Option (List Char)) :
    (generate_textbooks_async oracle entryOracle = none →
      mainWrites oracle entryOracle = [])
    ∧ (∀ corpus, generate_textbooks_async oracle entryOracle = some corpus →
        mainWrites oracle entryOracle = [corpus]
        ∧ corpus.map Prod.fst = GRADE_LEVELS.map (fun g => g ++ " Textbook")) := by
  constructor
  · intro h
    simp [mainWrites, h]
  · intro corpus h
    refine ⟨by simp [mainWrites, h], ?_⟩
    simp only [generate_textbooks_async] at h
    cases htl : textbooksLoopE oracle entryOracle GRADE_LEVELS 0 [] with
    | none => rw [htl] at h; simp at h
    | some r =>
      rw [htl] at h
      simp only [Option.map_some', Option.some.injEq] at h
      have hk := textbooksLoopE_keys oracle entryOracle GRADE_LEVELS 0 [] r htl
      rw [← h]
      exact hk

theorem corpus_write_once_and_keys_witness :
    mainWrites (fun _ => none) (fun _ _ => none) = [] :=
  (corpus_write_once_and_keys (fun _ => none) (fun _ _ => none)).1 (by decide)


end TogetherTxt
